import Mathlib

/-!
Verification of `src/rkyv/src/std_impl/net.rs`: the `Archive` / `Serialize` /
`Deserialize` implementations for the network address types (`Ipv4Addr`,
`Ipv6Addr`, `IpAddr`, `SocketAddrV4`, `SocketAddrV6`, `SocketAddr`).

The embedding works at two coupled levels:

* a structural level: each Rust domain type and each `Archived*` struct/enum
  becomes a Lean structure/inductive, `resolve`'s value-level effect becomes an
  `archive` function, and the `as_*` decoding methods and `deserialize` are
  translated directly;

* a byte level: `resolve` is a positional write of raw bytes into a destination
  buffer (`out.as_mut_ptr().cast::<[u8; N]>().write(..)` and the
  `project_struct!`-based field/variant writes), so each `resolve` impl is also
  modelled as the list of `(absolute position, byte)` writes it performs, which
  can be applied to a buffer `Nat → Option Nat` (`none` = byte never written).

Machine integers are modelled as `Fin (2 ^ w)`.
-/

/-! ## Domain types

`std::net` value types as used by the source file.  `Ipv4Addr` holds four
octets, `Ipv6Addr` eight 16-bit segments, exactly the accessors
(`octets()` / `segments()`) the source reads. -/

/-- Domain `std::net::Ipv4Addr`: four octets (`Ipv4Addr::octets`). -/
structure Ipv4Addr where
  a0 : Fin 256
  a1 : Fin 256
  a2 : Fin 256
  a3 : Fin 256
  deriving DecidableEq

/-- Domain `std::net::Ipv6Addr`: eight 16-bit segments (`Ipv6Addr::segments`). -/
structure Ipv6Addr where
  s0 : Fin 65536
  s1 : Fin 65536
  s2 : Fin 65536
  s3 : Fin 65536
  s4 : Fin 65536
  s5 : Fin 65536
  s6 : Fin 65536
  s7 : Fin 65536
  deriving DecidableEq

/-- Domain `std::net::IpAddr`. -/
inductive IpAddr where
  | V4 (addr : Ipv4Addr)
  | V6 (addr : Ipv6Addr)
  deriving DecidableEq

/-- Domain `std::net::SocketAddrV4`: ip + 16-bit port. -/
structure SocketAddrV4 where
  ip : Ipv4Addr
  port : Fin 65536
  deriving DecidableEq

/-- Domain `std::net::SocketAddrV6`: ip, 16-bit port, 32-bit flowinfo and
scope_id. -/
structure SocketAddrV6 where
  ip : Ipv6Addr
  port : Fin 65536
  flowinfo : Fin 4294967296
  scope_id : Fin 4294967296
  deriving DecidableEq

/-- Domain `std::net::SocketAddr`. -/
inductive SocketAddr where
  | V4 (addr : SocketAddrV4)
  | V6 (addr : SocketAddrV6)
  deriving DecidableEq

/-! ## Byte helpers

`Ipv6Addr::octets` returns the segments' bytes in network (big-endian) order:
for a segment `s` the pair is `[s / 256, s % 256]`.  `resolve` for `Ipv6Addr`
writes exactly these bytes (`out.cast::<[u8; 16]>().write(self.octets())`),
and `ArchivedIpv6Addr::as_ipv6` reads each stored byte pair `[hi, lo]` back
with `u16::from_be`, which on every host yields `hi * 256 + lo`. -/

/-- High (first, big-endian) byte of a 16-bit segment. -/
def hiByte (x : Fin 65536) : Fin 256 :=
  ⟨x.val / 256, by have h := x.isLt; omega⟩

/-- Low (second, big-endian) byte of a 16-bit segment. -/
def loByte (x : Fin 65536) : Fin 256 :=
  ⟨x.val % 256, by omega⟩

/-- Recombine a stored big-endian byte pair into a 16-bit segment, the net
effect of storing `octets()` and reading with `u16::from_be`. -/
def seg16 (hi lo : Fin 256) : Fin 65536 :=
  ⟨hi.val * 256 + lo.val, by have h1 := hi.isLt; have h2 := lo.isLt; omega⟩

/-! ## Archived representations (structural level)

These mirror the `Archived*` types of the source.  `ArchivedIpv6Addr` is
represented by its 16 stored bytes: the Rust struct holds `segments: [u16; 8]`,
but the bytes are what `resolve` writes and what is host-independent; the
host-dependent native `u16` view of those bytes is modelled separately below
for the derived `Ord`. -/

/-- Archived `Ipv4Addr`: `repr(transparent)` over `octets: [u8; 4]`. -/
structure ArchivedIpv4Addr where
  b0 : Fin 256
  b1 : Fin 256
  b2 : Fin 256
  b3 : Fin 256
  deriving DecidableEq

/-- Archived `Ipv6Addr`: `repr(transparent)` over `segments: [u16; 8]`,
represented here by the 16 stored bytes (two per segment, in order). -/
structure ArchivedIpv6Addr where
  b0 : Fin 256
  b1 : Fin 256
  b2 : Fin 256
  b3 : Fin 256
  b4 : Fin 256
  b5 : Fin 256
  b6 : Fin 256
  b7 : Fin 256
  b8 : Fin 256
  b9 : Fin 256
  b10 : Fin 256
  b11 : Fin 256
  b12 : Fin 256
  b13 : Fin 256
  b14 : Fin 256
  b15 : Fin 256
  deriving DecidableEq

/-- Archived `IpAddr`: `repr(u8)` enum with variants in declaration order. -/
inductive ArchivedIpAddr where
  | V4 (addr : ArchivedIpv4Addr)
  | V6 (addr : ArchivedIpv6Addr)
  deriving DecidableEq

/-- Archived `SocketAddrV4`.  `port: u16` is written and read back natively
(`self.port().resolve(..)` with the primitive impl), so at the value level the
archived port is the port itself. -/
structure ArchivedSocketAddrV4 where
  ip : ArchivedIpv4Addr
  port : Fin 65536
  deriving DecidableEq

/-- Archived `SocketAddrV6`. -/
structure ArchivedSocketAddrV6 where
  ip : ArchivedIpv6Addr
  port : Fin 65536
  flowinfo : Fin 4294967296
  scope_id : Fin 4294967296
  deriving DecidableEq

/-- Archived `SocketAddr`: `repr(u8)` enum with variants in declaration
order. -/
inductive ArchivedSocketAddr where
  | V4 (addr : ArchivedSocketAddrV4)
  | V6 (addr : ArchivedSocketAddrV6)
  deriving DecidableEq

/-! ## resolve, value level (`archive`) -/

/-- Value-level effect of `<Ipv4Addr as Archive>::resolve`: the archived
struct holds the four octets verbatim. -/
def Ipv4Addr.archive (v : Ipv4Addr) : ArchivedIpv4Addr :=
  ⟨v.a0, v.a1, v.a2, v.a3⟩

/-- Value-level effect of `<Ipv6Addr as Archive>::resolve`: the sixteen bytes
of `self.octets()` (big-endian byte pair per segment) are stored. -/
def Ipv6Addr.archive (v : Ipv6Addr) : ArchivedIpv6Addr :=
  ⟨hiByte v.s0, loByte v.s0, hiByte v.s1, loByte v.s1,
   hiByte v.s2, loByte v.s2, hiByte v.s3, loByte v.s3,
   hiByte v.s4, loByte v.s4, hiByte v.s5, loByte v.s5,
   hiByte v.s6, loByte v.s6, hiByte v.s7, loByte v.s7⟩

/-- Value-level effect of `<IpAddr as Archive>::resolve`: tag for the matched
variant, then the variant payload resolved in place. -/
def IpAddr.archive : IpAddr → ArchivedIpAddr
  | .V4 a => .V4 a.archive
  | .V6 a => .V6 a.archive

/-- Value-level effect of `<SocketAddrV4 as Archive>::resolve`: each field
resolved into the corresponding archived field. -/
def SocketAddrV4.archive (v : SocketAddrV4) : ArchivedSocketAddrV4 :=
  ⟨v.ip.archive, v.port⟩

/-- Value-level effect of `<SocketAddrV6 as Archive>::resolve`. -/
def SocketAddrV6.archive (v : SocketAddrV6) : ArchivedSocketAddrV6 :=
  ⟨v.ip.archive, v.port, v.flowinfo, v.scope_id⟩

/-- Value-level effect of `<SocketAddr as Archive>::resolve`. -/
def SocketAddr.archive : SocketAddr → ArchivedSocketAddr
  | .V4 a => .V4 a.archive
  | .V6 a => .V6 a.archive

/-! ## Decoding (`as_*` methods) -/

/-- `ArchivedIpv4Addr::as_ipv4`. -/
def ArchivedIpv4Addr.as_ipv4 (a : ArchivedIpv4Addr) : Ipv4Addr :=
  ⟨a.b0, a.b1, a.b2, a.b3⟩

/-- `ArchivedIpv6Addr::as_ipv6`: `u16::from_be` applied to each stored
segment, i.e. each stored byte pair `[hi, lo]` becomes `hi * 256 + lo`. -/
def ArchivedIpv6Addr.as_ipv6 (a : ArchivedIpv6Addr) : Ipv6Addr :=
  ⟨seg16 a.b0 a.b1, seg16 a.b2 a.b3, seg16 a.b4 a.b5, seg16 a.b6 a.b7,
   seg16 a.b8 a.b9, seg16 a.b10 a.b11, seg16 a.b12 a.b13, seg16 a.b14 a.b15⟩

/-- `ArchivedIpAddr::as_ipaddr`. -/
def ArchivedIpAddr.as_ipaddr : ArchivedIpAddr → IpAddr
  | .V4 a => .V4 a.as_ipv4
  | .V6 a => .V6 a.as_ipv6

/-- `ArchivedSocketAddrV4::as_socket_addr_v4`. -/
def ArchivedSocketAddrV4.as_socket_addr_v4 (a : ArchivedSocketAddrV4) :
    SocketAddrV4 :=
  ⟨a.ip.as_ipv4, a.port⟩

/-- `ArchivedSocketAddrV6::as_socket_addr_v6`. -/
def ArchivedSocketAddrV6.as_socket_addr_v6 (a : ArchivedSocketAddrV6) :
    SocketAddrV6 :=
  ⟨a.ip.as_ipv6, a.port, a.flowinfo, a.scope_id⟩

/-- `ArchivedSocketAddr::as_socket_addr`. -/
def ArchivedSocketAddr.as_socket_addr : ArchivedSocketAddr → SocketAddr
  | .V4 a => .V4 a.as_socket_addr_v4
  | .V6 a => .V6 a.as_socket_addr_v6

/-! ## Serialize / Deserialize adapters

The serializer/deserializer backend is opaque to every impl in the file; only
its error type `E` appears in the result type.  `Serialize` for the leaf types
returns `Ok(())`; the enum impls delegate to the matched variant.
`Deserialize` rebuilds the owned value, propagating nested results with `?`. -/

/-- `<Ipv4Addr as Serialize<S>>::serialize`: `Ok(())`. -/
def Ipv4Addr.serialize (E : Type) (_v : Ipv4Addr) : Except E Unit :=
  .ok ()

/-- `<Ipv6Addr as Serialize<S>>::serialize`: `Ok(())`. -/
def Ipv6Addr.serialize (E : Type) (_v : Ipv6Addr) : Except E Unit :=
  .ok ()

/-- `<IpAddr as Serialize<S>>::serialize`: delegates to the matched variant. -/
def IpAddr.serialize (E : Type) : IpAddr → Except E Unit
  | .V4 a => a.serialize E
  | .V6 a => a.serialize E

/-- `<SocketAddrV4 as Serialize<S>>::serialize`: `Ok(())`. -/
def SocketAddrV4.serialize (E : Type) (_v : SocketAddrV4) : Except E Unit :=
  .ok ()

/-- `<SocketAddrV6 as Serialize<S>>::serialize`: `Ok(())`. -/
def SocketAddrV6.serialize (E : Type) (_v : SocketAddrV6) : Except E Unit :=
  .ok ()

/-- `<SocketAddr as Serialize<S>>::serialize`: delegates to the matched
variant. -/
def SocketAddr.serialize (E : Type) : SocketAddr → Except E Unit
  | .V4 a => a.serialize E
  | .V6 a => a.serialize E

/-- `<ArchivedIpv4Addr as Deserialize<Ipv4Addr, D>>::deserialize`:
`Ok(self.as_ipv4())`. -/
def ArchivedIpv4Addr.deserialize (E : Type) (a : ArchivedIpv4Addr) :
    Except E Ipv4Addr :=
  .ok a.as_ipv4

/-- `<ArchivedIpv6Addr as Deserialize<Ipv6Addr, D>>::deserialize`:
`Ok(self.as_ipv6())`. -/
def ArchivedIpv6Addr.deserialize (E : Type) (a : ArchivedIpv6Addr) :
    Except E Ipv6Addr :=
  .ok a.as_ipv6

/-- `<ArchivedIpAddr as Deserialize<IpAddr, D>>::deserialize`: deserializes the
matched variant payload with `?` and rewraps it. -/
def ArchivedIpAddr.deserialize (E : Type) : ArchivedIpAddr → Except E IpAddr
  | .V4 a => (a.deserialize E).bind fun ip => .ok (IpAddr.V4 ip)
  | .V6 a => (a.deserialize E).bind fun ip => .ok (IpAddr.V6 ip)

/-- `<ArchivedSocketAddrV4 as Deserialize<SocketAddrV4, D>>::deserialize`:
deserializes `ip` with `?`, then rebuilds with the stored port. -/
def ArchivedSocketAddrV4.deserialize (E : Type) (a : ArchivedSocketAddrV4) :
    Except E SocketAddrV4 :=
  (a.ip.deserialize E).bind fun ip => .ok ⟨ip, a.port⟩

/-- `<ArchivedSocketAddrV6 as Deserialize<SocketAddrV6, D>>::deserialize`. -/
def ArchivedSocketAddrV6.deserialize (E : Type) (a : ArchivedSocketAddrV6) :
    Except E SocketAddrV6 :=
  (a.ip.deserialize E).bind fun ip => .ok ⟨ip, a.port, a.flowinfo, a.scope_id⟩

/-- `<ArchivedSocketAddr as Deserialize<SocketAddr, D>>::deserialize`. -/
def ArchivedSocketAddr.deserialize (E : Type) :
    ArchivedSocketAddr → Except E SocketAddr
  | .V4 a => (a.deserialize E).bind fun sa => .ok (SocketAddr.V4 sa)
  | .V6 a => (a.deserialize E).bind fun sa => .ok (SocketAddr.V6 sa)

/-! ## Cross-representation equality (`PartialEq` impls)

Each `PartialEq<Domain> for Archived` impl decodes the archived side first
(for the enums, after matching variants); each reverse impl delegates to the
forward one (`other.eq(self)`). -/

/-- `PartialEq<Ipv4Addr> for ArchivedIpv4Addr`: `self.as_ipv4().eq(other)`. -/
def ArchivedIpv4Addr.eqIpv4 (a : ArchivedIpv4Addr) (o : Ipv4Addr) : Bool :=
  decide (a.as_ipv4 = o)

/-- `PartialEq<ArchivedIpv4Addr> for Ipv4Addr`: `other.eq(self)`. -/
def Ipv4Addr.eqArchived (v : Ipv4Addr) (o : ArchivedIpv4Addr) : Bool :=
  o.eqIpv4 v

/-- `PartialEq<Ipv6Addr> for ArchivedIpv6Addr`: `self.as_ipv6().eq(other)`. -/
def ArchivedIpv6Addr.eqIpv6 (a : ArchivedIpv6Addr) (o : Ipv6Addr) : Bool :=
  decide (a.as_ipv6 = o)

/-- `PartialEq<ArchivedIpv6Addr> for Ipv6Addr`: `other.eq(self)`. -/
def Ipv6Addr.eqArchived (v : Ipv6Addr) (o : ArchivedIpv6Addr) : Bool :=
  o.eqIpv6 v

/-- `PartialEq<IpAddr> for ArchivedIpAddr`: variants must match, then the
payloads are compared (archived side decoded first). -/
def ArchivedIpAddr.eqIpAddr : ArchivedIpAddr → IpAddr → Bool
  | .V4 s, .V4 o => s.eqIpv4 o
  | .V6 s, .V6 o => s.eqIpv6 o
  | _, _ => false

/-- `PartialEq<ArchivedIpAddr> for IpAddr`: `other.eq(self)`. -/
def IpAddr.eqArchived (v : IpAddr) (o : ArchivedIpAddr) : Bool :=
  o.eqIpAddr v

/-- `PartialEq<SocketAddrV4> for ArchivedSocketAddrV4`:
`self.as_socket_addr_v4().eq(other)`. -/
def ArchivedSocketAddrV4.eqSocketAddrV4 (a : ArchivedSocketAddrV4)
    (o : SocketAddrV4) : Bool :=
  decide (a.as_socket_addr_v4 = o)

/-- `PartialEq<ArchivedSocketAddrV4> for SocketAddrV4`: `other.eq(self)`. -/
def SocketAddrV4.eqArchived (v : SocketAddrV4) (o : ArchivedSocketAddrV4) :
    Bool :=
  o.eqSocketAddrV4 v

/-- `PartialEq<SocketAddrV6> for ArchivedSocketAddrV6`:
`self.as_socket_addr_v6().eq(other)`. -/
def ArchivedSocketAddrV6.eqSocketAddrV6 (a : ArchivedSocketAddrV6)
    (o : SocketAddrV6) : Bool :=
  decide (a.as_socket_addr_v6 = o)

/-- `PartialEq<ArchivedSocketAddrV6> for SocketAddrV6`: `other.eq(self)`. -/
def SocketAddrV6.eqArchived (v : SocketAddrV6) (o : ArchivedSocketAddrV6) :
    Bool :=
  o.eqSocketAddrV6 v

/-- `PartialEq<SocketAddr> for ArchivedSocketAddr`:
`self.as_socket_addr().eq(other)`. -/
def ArchivedSocketAddr.eqSocketAddr (a : ArchivedSocketAddr) (o : SocketAddr) :
    Bool :=
  decide (a.as_socket_addr = o)

/-- `PartialEq<ArchivedSocketAddr> for SocketAddr`: `other.eq(self)`. -/
def SocketAddr.eqArchived (v : SocketAddr) (o : ArchivedSocketAddr) : Bool :=
  o.eqSocketAddr v

/-! ## resolve, byte level

A destination buffer maps absolute byte offsets to bytes (`none` = never
written).  Each `resolve` impl is modelled as the list of
`(absolute position, byte)` writes it performs, in source order; `applyWrites`
applies them to a buffer, later writes winning. -/

/-- Destination buffers: absolute offset to byte, `none` = unwritten. -/
def Buffer : Type := Nat → Option Nat

/-- The all-unwritten buffer. -/
def emptyBuf : Buffer := fun _ => none

/-- Write one byte at one absolute position. -/
def updB (buf : Buffer) (p v : Nat) : Buffer :=
  fun i => if i = p then some v else buf i

/-- Apply a list of writes to a buffer, in order (later writes win). -/
def applyWrites : List (Nat × Nat) → Buffer → Buffer
  | [], buf => buf
  | (p, v) :: ws, buf => applyWrites ws (updB buf p v)

/-- The consecutive writes of a list of bytes starting at `pos`
(a `ptr.cast::<[u8; N]>().write(..)`). -/
def bytesAt : List Nat → Nat → List (Nat × Nat)
  | [], _ => []
  | b :: bs, pos => (pos, b) :: bytesAt bs (pos + 1)

/-- The positions a list of writes touches. -/
def writtenPos (ws : List (Nat × Nat)) : List Nat :=
  ws.map Prod.fst

/-- The `n` consecutive byte offsets starting at `pos` (a slot region). -/
def slotRange (pos : Nat) : Nat → List Nat
  | 0 => []
  | n + 1 => pos :: slotRange (pos + 1) n

/-! ## Byte images of the leaf values -/

/-- `Ipv4Addr::octets()`, the bytes `<Ipv4Addr as Archive>::resolve` writes. -/
def Ipv4Addr.octetsList (v : Ipv4Addr) : List Nat :=
  [v.a0.val, v.a1.val, v.a2.val, v.a3.val]

/-- `Ipv6Addr::octets()`, the bytes `<Ipv6Addr as Archive>::resolve` writes:
the big-endian byte pair of each segment, in segment order. -/
def Ipv6Addr.octetsList (v : Ipv6Addr) : List Nat :=
  [v.s0.val / 256, v.s0.val % 256, v.s1.val / 256, v.s1.val % 256,
   v.s2.val / 256, v.s2.val % 256, v.s3.val / 256, v.s3.val % 256,
   v.s4.val / 256, v.s4.val % 256, v.s5.val / 256, v.s5.val % 256,
   v.s6.val / 256, v.s6.val % 256, v.s7.val / 256, v.s7.val % 256]

/-- Modelled from the spec: the primitive `Archive` impls for `u16`/`u32`
(used for `port`, `flowinfo`, `scope_id`) live outside `src/`; the spec fixes
only their width (16/32 bits: "port = 16-bit; flow/scope = 32-bit"), not a
byte order, so a fixed little-endian image is used.  No settled statement
depends on which fixed order is chosen. -/
def u16Bytes (x : Fin 65536) : List Nat :=
  [x.val % 256, x.val / 256]

/-- Modelled from the spec: 32-bit field byte image, see `u16Bytes`. -/
def u32Bytes (x : Fin 4294967296) : List Nat :=
  [x.val % 256, x.val / 256 % 256, x.val / 65536 % 256, x.val / 16777216 % 256]

/-! ## Declared archived layout

Sizes and field/payload byte offsets of the archived types.  The enums are
`repr(u8)`, whose layout Rust defines (RFC 2195): each variant is laid out as
a `repr(C)` struct `(tag, payload)` — exactly the `ArchivedIpAddrVariantV4`
etc. overlay structs of the source — and the enum's size is the maximum
variant size rounded up to the maximum alignment.  The plain structs
(`ArchivedSocketAddrV4`/`V6`) use the declared field order as under the
`strict` feature (`repr(C)`); the source reads the offsets with `offset_of!`,
so the model's offsets play the role of that macro's values. -/

/-- `size_of::<ArchivedIpv4Addr>()`: `repr(transparent)` over `[u8; 4]`. -/
def sizeArchivedIpv4 : Nat := 4

/-- `size_of::<ArchivedIpv6Addr>()`: `repr(transparent)` over `[u16; 8]`. -/
def sizeArchivedIpv6 : Nat := 16

/-- `offset_of!(ArchivedIpAddrVariantV4, 1)`: tag byte, then the align-1
`ArchivedIpv4Addr` payload at offset 1. -/
def offV4InIpAddr : Nat := 1

/-- `offset_of!(ArchivedIpAddrVariantV6, 1)`: tag byte, one padding byte, then
the align-2 `ArchivedIpv6Addr` payload at offset 2. -/
def offV6InIpAddr : Nat := 2

/-- `size_of::<ArchivedIpAddr>()`: max variant record size (5 for V4, 18 for
V6) rounded to the enum alignment 2, hence 18. -/
def sizeArchivedIpAddr : Nat := 18

/-- Offset of `ip` in `ArchivedSocketAddrV4`. -/
def offIpInSAV4 : Nat := 0

/-- Offset of `port` in `ArchivedSocketAddrV4` (after the 4 ip bytes). -/
def offPortInSAV4 : Nat := 4

/-- `size_of::<ArchivedSocketAddrV4>()`: 4 + 2 with no padding possible. -/
def sizeArchivedSAV4 : Nat := 6

/-- Offset of `ip` in `ArchivedSocketAddrV6`. -/
def offIpInSAV6 : Nat := 0

/-- Offset of `port` in `ArchivedSocketAddrV6` (after the 16 ip bytes). -/
def offPortInSAV6 : Nat := 16

/-- Offset of `flowinfo` in `ArchivedSocketAddrV6`: 18 rounded up to the `u32`
alignment 4. -/
def offFlowInSAV6 : Nat := 20

/-- Offset of `scope_id` in `ArchivedSocketAddrV6`. -/
def offScopeInSAV6 : Nat := 24

/-- `size_of::<ArchivedSocketAddrV6>()`: 28 (26 field bytes plus 2 padding
bytes, alignment 4). -/
def sizeArchivedSAV6 : Nat := 28

/-- `offset_of!(ArchivedSocketAddrVariantV4, 1)`: tag byte, one padding byte,
then the align-2 `ArchivedSocketAddrV4` payload at offset 2. -/
def offV4InSA : Nat := 2

/-- `offset_of!(ArchivedSocketAddrVariantV6, 1)`: tag byte, three padding
bytes, then the align-4 `ArchivedSocketAddrV6` payload at offset 4. -/
def offV6InSA : Nat := 4

/-- `size_of::<ArchivedSocketAddr>()`: max variant record size (8 for V4, 32
for V6) rounded to alignment 4, hence 32. -/
def sizeArchivedSA : Nat := 32

/-! ## Discriminants -/

/-- `ArchivedIpAddrTag`: `repr(u8)` with discriminants in declaration order. -/
inductive ArchivedIpAddrTag where
  | V4
  | V6
  deriving DecidableEq

/-- The `u8` value of an `ArchivedIpAddrTag` (declaration order: 0, 1). -/
def ArchivedIpAddrTag.val : ArchivedIpAddrTag → Nat
  | .V4 => 0
  | .V6 => 1

/-- `ArchivedSocketAddrTag`: `repr(u8)` with discriminants in declaration
order. -/
inductive ArchivedSocketAddrTag where
  | V4
  | V6
  deriving DecidableEq

/-- The `u8` value of an `ArchivedSocketAddrTag` (declaration order: 0, 1). -/
def ArchivedSocketAddrTag.val : ArchivedSocketAddrTag → Nat
  | .V4 => 0
  | .V6 => 1

/-! ## resolve as positional writes -/

/-- Byte writes of `<Ipv4Addr as Archive>::resolve` at `pos`:
`out.cast::<[u8; 4]>().write(self.octets())`. -/
def writesIpv4 (v : Ipv4Addr) (pos : Nat) : List (Nat × Nat) :=
  bytesAt v.octetsList pos

/-- Byte writes of `<Ipv6Addr as Archive>::resolve` at `pos`:
`out.cast::<[u8; 16]>().write(self.octets())`. -/
def writesIpv6 (v : Ipv6Addr) (pos : Nat) : List (Nat × Nat) :=
  bytesAt v.octetsList pos

/-- Byte writes of the primitive `u16` resolve at `pos` (see `u16Bytes`). -/
def u16Writes (x : Fin 65536) (pos : Nat) : List (Nat × Nat) :=
  bytesAt (u16Bytes x) pos

/-- Byte writes of the primitive `u32` resolve at `pos` (see `u32Bytes`). -/
def u32Writes (x : Fin 4294967296) (pos : Nat) : List (Nat × Nat) :=
  bytesAt (u32Bytes x) pos

/-- Byte writes of `<IpAddr as Archive>::resolve` at `pos`: the matched
variant's tag into the tag cell, then the payload resolved at
`pos + offset_of!(ArchivedIpAddrVariant_, 1)`. -/
def writesIpAddr : IpAddr → Nat → List (Nat × Nat)
  | .V4 a, pos => (pos, ArchivedIpAddrTag.V4.val) :: writesIpv4 a (pos + offV4InIpAddr)
  | .V6 a, pos => (pos, ArchivedIpAddrTag.V6.val) :: writesIpv6 a (pos + offV6InIpAddr)

/-- Byte writes of `<SocketAddrV4 as Archive>::resolve` at `pos`: each field
resolved at `pos + offset_of!(ArchivedSocketAddrV4, field)`. -/
def writesSocketAddrV4 (v : SocketAddrV4) (pos : Nat) : List (Nat × Nat) :=
  writesIpv4 v.ip (pos + offIpInSAV4) ++ u16Writes v.port (pos + offPortInSAV4)

/-- Byte writes of `<SocketAddrV6 as Archive>::resolve` at `pos`: each field
resolved at `pos + offset_of!(ArchivedSocketAddrV6, field)`. -/
def writesSocketAddrV6 (v : SocketAddrV6) (pos : Nat) : List (Nat × Nat) :=
  writesIpv6 v.ip (pos + offIpInSAV6) ++ u16Writes v.port (pos + offPortInSAV6) ++
    u32Writes v.flowinfo (pos + offFlowInSAV6) ++
    u32Writes v.scope_id (pos + offScopeInSAV6)

/-- Byte writes of `<SocketAddr as Archive>::resolve` at `pos`. -/
def writesSocketAddr : SocketAddr → Nat → List (Nat × Nat)
  | .V4 a, pos => (pos, ArchivedSocketAddrTag.V4.val) :: writesSocketAddrV4 a (pos + offV4InSA)
  | .V6 a, pos => (pos, ArchivedSocketAddrTag.V6.val) :: writesSocketAddrV6 a (pos + offV6InSA)

/-! ## Ordering

The domain order on `Ipv6Addr` (std) compares the 16 octets
lexicographically.  The archived-vs-archived order is the *derived* `Ord` on
`ArchivedIpv6Addr`, which compares the `segments: [u16; 8]` field
lexicographically — and those `u16` values are the *native* reinterpretation
of the stored big-endian byte pairs, so they depend on the host's byte
order; the host is a boolean parameter (`littleEndian`). -/

/-- Lexicographic comparison of `Nat` lists (derived array/slice `Ord`). -/
def cmpList : List Nat → List Nat → Ordering
  | [], [] => .eq
  | [], _ :: _ => .lt
  | _ :: _, [] => .gt
  | a :: as, b :: bs =>
    match compare a b with
    | .eq => cmpList as bs
    | o => o

/-- Modelled from the spec: the domain `Ord` on `std::net::Ipv6Addr` is not in
`src/`; the spec's "total order consistent with the domain type's order"
refers to std's, which compares the 16 network-order octets
lexicographically. -/
def Ipv6Addr.cmp (v w : Ipv6Addr) : Ordering :=
  cmpList v.octetsList w.octetsList

/-- The native `u16` value a host reads from the stored byte pair
`[first, second]`: `first + 256 * second` on a little-endian host,
`256 * first + second` on a big-endian host. -/
def nativeU16 (littleEndian : Bool) (first second : Fin 256) : Nat :=
  if littleEndian then first.val + 256 * second.val
  else 256 * first.val + second.val

/-- The `segments: [u16; 8]` field as the host's native `u16` values. -/
def ArchivedIpv6Addr.segmentsNative (littleEndian : Bool)
    (a : ArchivedIpv6Addr) : List Nat :=
  [nativeU16 littleEndian a.b0 a.b1, nativeU16 littleEndian a.b2 a.b3,
   nativeU16 littleEndian a.b4 a.b5, nativeU16 littleEndian a.b6 a.b7,
   nativeU16 littleEndian a.b8 a.b9, nativeU16 littleEndian a.b10 a.b11,
   nativeU16 littleEndian a.b12 a.b13, nativeU16 littleEndian a.b14 a.b15]

/-- The derived `Ord` on `ArchivedIpv6Addr` (single field `segments`):
lexicographic comparison of the native `u16` segment values. -/
def ArchivedIpv6Addr.cmpArchived (littleEndian : Bool)
    (a b : ArchivedIpv6Addr) : Ordering :=
  cmpList (a.segmentsNative littleEndian) (b.segmentsNative littleEndian)

/-! ## Classification predicates

The domain predicates are std's; their semantics are restated by the source's
own doc comments (loopback 127.0.0.0/8 and ::1, multicast 224.0.0.0/4 and
ff00::/8, unspecified 0.0.0.0 and ::).  Each archived predicate decodes and
then applies the domain predicate, exactly as the source does
(`self.as_ipv4().is_loopback()` etc.). -/

/-- Modelled from the spec: `Ipv4Addr::is_loopback` (127.0.0.0/8). -/
def Ipv4Addr.is_loopback (v : Ipv4Addr) : Bool :=
  decide (v.a0.val = 127)

/-- Modelled from the spec: `Ipv4Addr::is_multicast` (224.0.0.0/4). -/
def Ipv4Addr.is_multicast (v : Ipv4Addr) : Bool :=
  decide (224 ≤ v.a0.val ∧ v.a0.val ≤ 239)

/-- Modelled from the spec: `Ipv4Addr::is_unspecified` (0.0.0.0). -/
def Ipv4Addr.is_unspecified (v : Ipv4Addr) : Bool :=
  decide (v.a0.val = 0 ∧ v.a1.val = 0 ∧ v.a2.val = 0 ∧ v.a3.val = 0)

/-- Modelled from the spec: `Ipv6Addr::is_loopback` (::1). -/
def Ipv6Addr.is_loopback (v : Ipv6Addr) : Bool :=
  decide (v.s0.val = 0 ∧ v.s1.val = 0 ∧ v.s2.val = 0 ∧ v.s3.val = 0 ∧
    v.s4.val = 0 ∧ v.s5.val = 0 ∧ v.s6.val = 0 ∧ v.s7.val = 1)

/-- Modelled from the spec: `Ipv6Addr::is_multicast` (ff00::/8): the first
segment's high byte is 0xff. -/
def Ipv6Addr.is_multicast (v : Ipv6Addr) : Bool :=
  decide (v.s0.val / 256 = 255)

/-- Modelled from the spec: `Ipv6Addr::is_unspecified` (::). -/
def Ipv6Addr.is_unspecified (v : Ipv6Addr) : Bool :=
  decide (v.s0.val = 0 ∧ v.s1.val = 0 ∧ v.s2.val = 0 ∧ v.s3.val = 0 ∧
    v.s4.val = 0 ∧ v.s5.val = 0 ∧ v.s6.val = 0 ∧ v.s7.val = 0)

/-- Modelled from the spec: `IpAddr::is_ipv4` (variant test). -/
def IpAddr.is_ipv4 : IpAddr → Bool
  | .V4 _ => true
  | .V6 _ => false

/-- Modelled from the spec: `IpAddr::is_ipv6` (variant test). -/
def IpAddr.is_ipv6 : IpAddr → Bool
  | .V4 _ => false
  | .V6 _ => true

/-- Modelled from the spec: `IpAddr::is_loopback` delegates to the variant. -/
def IpAddr.is_loopback : IpAddr → Bool
  | .V4 a => a.is_loopback
  | .V6 a => a.is_loopback

/-- Modelled from the spec: `IpAddr::is_multicast` delegates to the variant. -/
def IpAddr.is_multicast : IpAddr → Bool
  | .V4 a => a.is_multicast
  | .V6 a => a.is_multicast

/-- Modelled from the spec: `IpAddr::is_unspecified` delegates to the
variant. -/
def IpAddr.is_unspecified : IpAddr → Bool
  | .V4 a => a.is_unspecified
  | .V6 a => a.is_unspecified

/-- `ArchivedIpv4Addr::is_loopback`: `self.as_ipv4().is_loopback()`. -/
def ArchivedIpv4Addr.is_loopback (a : ArchivedIpv4Addr) : Bool :=
  a.as_ipv4.is_loopback

/-- `ArchivedIpv4Addr::is_multicast`: `self.as_ipv4().is_multicast()`. -/
def ArchivedIpv4Addr.is_multicast (a : ArchivedIpv4Addr) : Bool :=
  a.as_ipv4.is_multicast

/-- `ArchivedIpv4Addr::is_unspecified`: `self.as_ipv4().is_unspecified()`. -/
def ArchivedIpv4Addr.is_unspecified (a : ArchivedIpv4Addr) : Bool :=
  a.as_ipv4.is_unspecified

/-- `ArchivedIpv6Addr::is_loopback`: `self.as_ipv6().is_loopback()`. -/
def ArchivedIpv6Addr.is_loopback (a : ArchivedIpv6Addr) : Bool :=
  a.as_ipv6.is_loopback

/-- `ArchivedIpv6Addr::is_multicast`: `self.as_ipv6().is_multicast()`. -/
def ArchivedIpv6Addr.is_multicast (a : ArchivedIpv6Addr) : Bool :=
  a.as_ipv6.is_multicast

/-- `ArchivedIpv6Addr::is_unspecified`: `self.as_ipv6().is_unspecified()`. -/
def ArchivedIpv6Addr.is_unspecified (a : ArchivedIpv6Addr) : Bool :=
  a.as_ipv6.is_unspecified

/-- `ArchivedIpAddr::is_ipv4` (variant test). -/
def ArchivedIpAddr.is_ipv4 : ArchivedIpAddr → Bool
  | .V4 _ => true
  | .V6 _ => false

/-- `ArchivedIpAddr::is_ipv6` (variant test). -/
def ArchivedIpAddr.is_ipv6 : ArchivedIpAddr → Bool
  | .V4 _ => false
  | .V6 _ => true

/-- `ArchivedIpAddr::is_loopback`: delegates to the variant payload. -/
def ArchivedIpAddr.is_loopback : ArchivedIpAddr → Bool
  | .V4 a => a.is_loopback
  | .V6 a => a.is_loopback

/-- `ArchivedIpAddr::is_multicast`: delegates to the variant payload. -/
def ArchivedIpAddr.is_multicast : ArchivedIpAddr → Bool
  | .V4 a => a.is_multicast
  | .V6 a => a.is_multicast

/-- `ArchivedIpAddr::is_unspecified`: delegates to the variant payload. -/
def ArchivedIpAddr.is_unspecified : ArchivedIpAddr → Bool
  | .V4 a => a.is_unspecified
  | .V6 a => a.is_unspecified

/-! ## Write-model infrastructure lemmas -/

/-- Applying concatenated write lists applies them in sequence. -/
theorem applyWrites_append (xs ys : List (Nat × Nat)) (buf : Buffer) :
    applyWrites (xs ++ ys) buf = applyWrites ys (applyWrites xs buf) := by
  induction xs generalizing buf with
  | nil => rfl
  | cons hd tl ih =>
    obtain ⟨p, v⟩ := hd
    simp only [List.cons_append, applyWrites]
    exact ih _

/-- Unfolding one write. -/
theorem applyWrites_cons (p v : Nat) (ws : List (Nat × Nat)) (buf : Buffer) :
    applyWrites ((p, v) :: ws) buf = applyWrites ws (updB buf p v) := rfl

/-- A position no write touches keeps its old content. -/
theorem applyWrites_out (ws : List (Nat × Nat)) (buf : Buffer) (j : Nat)
    (h : j ∉ writtenPos ws) : applyWrites ws buf j = buf j := by
  induction ws generalizing buf with
  | nil => rfl
  | cons hd tl ih =>
    obtain ⟨p, v⟩ := hd
    have h1 : j ≠ p := by
      intro he
      exact h (by simp [writtenPos, he])
    have h2 : j ∉ writtenPos tl := by
      intro hm
      exact h (by simp [writtenPos] at hm ⊢; exact Or.inr hm)
    simp only [applyWrites]
    rw [ih _ h2]
    simp [updB, h1]

/-- At a position some write touches, the result does not depend on the
initial buffer. -/
theorem applyWrites_congr (ws : List (Nat × Nat)) (buf bufB : Buffer) (j : Nat)
    (h : j ∈ writtenPos ws) :
    applyWrites ws buf j = applyWrites ws bufB j := by
  induction ws generalizing buf bufB with
  | nil => simp [writtenPos] at h
  | cons hd tl ih =>
    obtain ⟨p, v⟩ := hd
    by_cases hm : j ∈ writtenPos tl
    · simp only [applyWrites]
      exact ih _ _ hm
    · have hp : j = p := by
        simp [writtenPos] at h hm
        tauto
      simp only [applyWrites]
      rw [applyWrites_out _ _ _ hm, applyWrites_out _ _ _ hm]
      simp [updB, hp]

/-- The positions of a consecutive byte write are the slot range. -/
theorem bytesAt_map_fst (bs : List Nat) (pos : Nat) :
    (bytesAt bs pos).map Prod.fst = slotRange pos bs.length := by
  induction bs generalizing pos with
  | nil => rfl
  | cons b t ih => simp [bytesAt, slotRange, ih]

/-- Membership in a slot range is the interval condition. -/
theorem mem_slotRange (j pos n : Nat) :
    j ∈ slotRange pos n ↔ pos ≤ j ∧ j < pos + n := by
  induction n generalizing pos with
  | zero => simp [slotRange]
  | succ k ih =>
    simp only [slotRange, List.mem_cons, ih]
    omega

/-- Positions touched by a consecutive byte write. -/
theorem writtenPos_bytesAt (bs : List Nat) (pos j : Nat) :
    j ∈ writtenPos (bytesAt bs pos) ↔ pos ≤ j ∧ j < pos + bs.length := by
  rw [writtenPos, bytesAt_map_fst, mem_slotRange]

/-- A consecutive byte write leaves positions outside its range unchanged. -/
theorem applyWrites_out_bytes (bs : List Nat) (pos : Nat) (buf : Buffer)
    (j : Nat) (h : j < pos ∨ pos + bs.length ≤ j) :
    applyWrites (bytesAt bs pos) buf j = buf j :=
  applyWrites_out _ _ _ (by rw [writtenPos_bytesAt]; omega)

/-- A consecutive byte write puts byte `j` of the list at `pos + j`. -/
theorem applyWrites_bytesAt_get (bs : List Nat) (pos : Nat) (buf : Buffer)
    (j : Nat) (h : j < bs.length) :
    applyWrites (bytesAt bs pos) buf (pos + j) = bs[j]? := by
  induction bs generalizing pos j buf with
  | nil => simp at h
  | cons b t ih =>
    match j with
    | 0 =>
      simp only [bytesAt, applyWrites, Nat.add_zero]
      rw [applyWrites_out_bytes t (pos + 1) _ pos (by omega)]
      simp [updB]
    | k + 1 =>
      simp only [bytesAt, applyWrites]
      have hs : pos + (k + 1) = (pos + 1) + k := by omega
      rw [hs, ih (pos + 1) _ k (by simpa using h)]
      simp

/-! ## Round-trip helper lemmas -/

/-- Decoding an archived `Ipv4Addr` recovers the value. -/
theorem archive_as_ipv4 (v : Ipv4Addr) : v.archive.as_ipv4 = v := rfl

/-- Decoding an archived `Ipv6Addr` recovers the value: storing the
big-endian octets and reading them back with `u16::from_be` is the
identity on each segment. -/
theorem archive_as_ipv6 (v : Ipv6Addr) : v.archive.as_ipv6 = v := by
  cases v with
  | mk s0 s1 s2 s3 s4 s5 s6 s7 =>
    simp only [Ipv6Addr.archive, ArchivedIpv6Addr.as_ipv6, seg16, hiByte,
      loByte, Ipv6Addr.mk.injEq]
    refine ⟨?_, ?_, ?_, ?_, ?_, ?_, ?_, ?_⟩ <;>
      (apply Fin.ext; simp only [Fin.val_mk]; omega)

/-- Decoding an archived `IpAddr` recovers the value. -/
theorem archive_as_ipaddr (v : IpAddr) : v.archive.as_ipaddr = v := by
  cases v with
  | V4 a => simp [IpAddr.archive, ArchivedIpAddr.as_ipaddr, archive_as_ipv4]
  | V6 a => simp [IpAddr.archive, ArchivedIpAddr.as_ipaddr, archive_as_ipv6]

/-- Decoding an archived `SocketAddrV4` recovers the value. -/
theorem archive_as_sav4 (v : SocketAddrV4) :
    v.archive.as_socket_addr_v4 = v := by
  cases v with
  | mk ip port =>
    simp [SocketAddrV4.archive, ArchivedSocketAddrV4.as_socket_addr_v4,
      archive_as_ipv4]

/-- Decoding an archived `SocketAddrV6` recovers the value. -/
theorem archive_as_sav6 (v : SocketAddrV6) :
    v.archive.as_socket_addr_v6 = v := by
  cases v with
  | mk ip port flowinfo scope_id =>
    simp [SocketAddrV6.archive, ArchivedSocketAddrV6.as_socket_addr_v6,
      archive_as_ipv6]

/-- Decoding an archived `SocketAddr` recovers the value. -/
theorem archive_as_sa (v : SocketAddr) : v.archive.as_socket_addr = v := by
  cases v with
  | V4 a => simp [SocketAddr.archive, ArchivedSocketAddr.as_socket_addr,
      archive_as_sav4]
  | V6 a => simp [SocketAddr.archive, ArchivedSocketAddr.as_socket_addr,
      archive_as_sav6]

/-! ## Claim theorems -/

/-- C1: for every in-scope value v (`Ipv4Addr`, `Ipv6Addr`, `IpAddr`,
`SocketAddrV4`, `SocketAddrV6`, `SocketAddr`), deserializing the archived
representation produced by resolve succeeds and yields exactly v — every
field (octets, segments, port, flowinfo, scope_id) matches, since the
equality is structural equality of the domain values. -/
theorem C1_roundtrip_identity :
    (∀ (E : Type) (v : Ipv4Addr), v.archive.deserialize E = .ok v) ∧
    (∀ (E : Type) (v : Ipv6Addr), v.archive.deserialize E = .ok v) ∧
    (∀ (E : Type) (v : IpAddr), v.archive.deserialize E = .ok v) ∧
    (∀ (E : Type) (v : SocketAddrV4), v.archive.deserialize E = .ok v) ∧
    (∀ (E : Type) (v : SocketAddrV6), v.archive.deserialize E = .ok v) ∧
    (∀ (E : Type) (v : SocketAddr), v.archive.deserialize E = .ok v) := by
  refine ⟨fun E v => ?_, fun E v => ?_, fun E v => ?_, fun E v => ?_,
    fun E v => ?_, fun E v => ?_⟩
  · simp [ArchivedIpv4Addr.deserialize, archive_as_ipv4]
  · simp [ArchivedIpv6Addr.deserialize, archive_as_ipv6]
  · cases v with
    | V4 a => simp [IpAddr.archive, ArchivedIpAddr.deserialize,
        ArchivedIpv4Addr.deserialize, Except.bind, archive_as_ipv4]
    | V6 a => simp [IpAddr.archive, ArchivedIpAddr.deserialize,
        ArchivedIpv6Addr.deserialize, Except.bind, archive_as_ipv6]
  · cases v with
    | mk ip port =>
      simp [SocketAddrV4.archive, ArchivedSocketAddrV4.deserialize,
        ArchivedIpv4Addr.deserialize, Ipv4Addr.archive,
        ArchivedIpv4Addr.as_ipv4, Except.bind]
  · cases v with
    | mk ip port flowinfo scope_id =>
      simp [SocketAddrV6.archive, ArchivedSocketAddrV6.deserialize,
        ArchivedIpv6Addr.deserialize, Except.bind, archive_as_ipv6]
  · cases v with
    | V4 a =>
      cases a with
      | mk ip port =>
        simp [SocketAddr.archive, SocketAddrV4.archive,
          ArchivedSocketAddr.deserialize, ArchivedSocketAddrV4.deserialize,
          ArchivedIpv4Addr.deserialize, Ipv4Addr.archive,
          ArchivedIpv4Addr.as_ipv4, Except.bind]
    | V6 a =>
      cases a with
      | mk ip port flowinfo scope_id =>
        simp [SocketAddr.archive, SocketAddrV6.archive,
          ArchivedSocketAddr.deserialize, ArchivedSocketAddrV6.deserialize,
          ArchivedIpv6Addr.deserialize, Except.bind, archive_as_ipv6]

/-! ## Archive injectivity helpers -/

/-- Archiving `Ipv4Addr` is injective. -/
theorem archive_ipv4_inj {v w : Ipv4Addr} : v.archive = w.archive ↔ v = w :=
  ⟨fun h => by simpa [archive_as_ipv4] using congrArg ArchivedIpv4Addr.as_ipv4 h,
   fun h => by rw [h]⟩

/-- Archiving `Ipv6Addr` is injective. -/
theorem archive_ipv6_inj {v w : Ipv6Addr} : v.archive = w.archive ↔ v = w :=
  ⟨fun h => by simpa [archive_as_ipv6] using congrArg ArchivedIpv6Addr.as_ipv6 h,
   fun h => by rw [h]⟩

/-- Archiving `IpAddr` is injective. -/
theorem archive_ipaddr_inj {v w : IpAddr} : v.archive = w.archive ↔ v = w :=
  ⟨fun h => by simpa [archive_as_ipaddr] using congrArg ArchivedIpAddr.as_ipaddr h,
   fun h => by rw [h]⟩

/-- Archiving `SocketAddrV4` is injective. -/
theorem archive_sav4_inj {v w : SocketAddrV4} : v.archive = w.archive ↔ v = w :=
  ⟨fun h => by
    simpa [archive_as_sav4] using
      congrArg ArchivedSocketAddrV4.as_socket_addr_v4 h,
   fun h => by rw [h]⟩

/-- Archiving `SocketAddrV6` is injective. -/
theorem archive_sav6_inj {v w : SocketAddrV6} : v.archive = w.archive ↔ v = w :=
  ⟨fun h => by
    simpa [archive_as_sav6] using
      congrArg ArchivedSocketAddrV6.as_socket_addr_v6 h,
   fun h => by rw [h]⟩

/-- Archiving `SocketAddr` is injective. -/
theorem archive_sa_inj {v w : SocketAddr} : v.archive = w.archive ↔ v = w :=
  ⟨fun h => by
    simpa [archive_as_sa] using congrArg ArchivedSocketAddr.as_socket_addr h,
   fun h => by rw [h]⟩

/-- C6: for every in-scope type, archived forms of v and w are equal iff
v = w, and the cross-representation `PartialEq` bridges agree with domain
equality in both directions: `archived(v) == w ⇔ v == w` and
`v == archived(w) ⇔ v == w`. -/
theorem C6_equality_agreement :
    (∀ v w : Ipv4Addr, (v.archive = w.archive ↔ v = w) ∧
      (v.archive.eqIpv4 w = true ↔ v = w) ∧
      (v.eqArchived w.archive = true ↔ v = w)) ∧
    (∀ v w : Ipv6Addr, (v.archive = w.archive ↔ v = w) ∧
      (v.archive.eqIpv6 w = true ↔ v = w) ∧
      (v.eqArchived w.archive = true ↔ v = w)) ∧
    (∀ v w : IpAddr, (v.archive = w.archive ↔ v = w) ∧
      (v.archive.eqIpAddr w = true ↔ v = w) ∧
      (v.eqArchived w.archive = true ↔ v = w)) ∧
    (∀ v w : SocketAddrV4, (v.archive = w.archive ↔ v = w) ∧
      (v.archive.eqSocketAddrV4 w = true ↔ v = w) ∧
      (v.eqArchived w.archive = true ↔ v = w)) ∧
    (∀ v w : SocketAddrV6, (v.archive = w.archive ↔ v = w) ∧
      (v.archive.eqSocketAddrV6 w = true ↔ v = w) ∧
      (v.eqArchived w.archive = true ↔ v = w)) ∧
    (∀ v w : SocketAddr, (v.archive = w.archive ↔ v = w) ∧
      (v.archive.eqSocketAddr w = true ↔ v = w) ∧
      (v.eqArchived w.archive = true ↔ v = w)) := by
  refine ⟨fun v w => ⟨archive_ipv4_inj, ?_, ?_⟩,
    fun v w => ⟨archive_ipv6_inj, ?_, ?_⟩,
    fun v w => ⟨archive_ipaddr_inj, ?_, ?_⟩,
    fun v w => ⟨archive_sav4_inj, ?_, ?_⟩,
    fun v w => ⟨archive_sav6_inj, ?_, ?_⟩,
    fun v w => ⟨archive_sa_inj, ?_, ?_⟩⟩
  · simp [ArchivedIpv4Addr.eqIpv4, archive_as_ipv4, eq_comm]
  · simp [Ipv4Addr.eqArchived, ArchivedIpv4Addr.eqIpv4, archive_as_ipv4,
      eq_comm]
  · simp [ArchivedIpv6Addr.eqIpv6, archive_as_ipv6, eq_comm]
  · simp [Ipv6Addr.eqArchived, ArchivedIpv6Addr.eqIpv6, archive_as_ipv6,
      eq_comm]
  · cases v <;> cases w <;>
      simp [IpAddr.archive, ArchivedIpAddr.eqIpAddr, ArchivedIpv4Addr.eqIpv4,
        ArchivedIpv6Addr.eqIpv6, archive_as_ipv4, archive_as_ipv6, eq_comm]
  · cases v <;> cases w <;>
      simp [IpAddr.eqArchived, IpAddr.archive, ArchivedIpAddr.eqIpAddr,
        ArchivedIpv4Addr.eqIpv4, ArchivedIpv6Addr.eqIpv6, archive_as_ipv4,
        archive_as_ipv6, eq_comm]
  · simp [ArchivedSocketAddrV4.eqSocketAddrV4, archive_as_sav4, eq_comm]
  · simp [SocketAddrV4.eqArchived, ArchivedSocketAddrV4.eqSocketAddrV4,
      archive_as_sav4, eq_comm]
  · simp [ArchivedSocketAddrV6.eqSocketAddrV6, archive_as_sav6, eq_comm]
  · simp [SocketAddrV6.eqArchived, ArchivedSocketAddrV6.eqSocketAddrV6,
      archive_as_sav6, eq_comm]
  · simp [ArchivedSocketAddr.eqSocketAddr, archive_as_sa, eq_comm]
  · simp [SocketAddr.eqArchived, ArchivedSocketAddr.eqSocketAddr,
      archive_as_sa, eq_comm]

/-- C7: for every in-scope type and every backend error type, serialize
returns `Ok` with the trivial resolver `()`, and deserialize returns `Ok`
(with the decoded value); neither operation can fail. -/
theorem C7_serialize_deserialize_infallible :
    (∀ (E : Type) (v : Ipv4Addr), v.serialize E = .ok ()) ∧
    (∀ (E : Type) (v : Ipv6Addr), v.serialize E = .ok ()) ∧
    (∀ (E : Type) (v : IpAddr), v.serialize E = .ok ()) ∧
    (∀ (E : Type) (v : SocketAddrV4), v.serialize E = .ok ()) ∧
    (∀ (E : Type) (v : SocketAddrV6), v.serialize E = .ok ()) ∧
    (∀ (E : Type) (v : SocketAddr), v.serialize E = .ok ()) ∧
    (∀ (E : Type) (a : ArchivedIpv4Addr), a.deserialize E = .ok a.as_ipv4) ∧
    (∀ (E : Type) (a : ArchivedIpv6Addr), a.deserialize E = .ok a.as_ipv6) ∧
    (∀ (E : Type) (a : ArchivedIpAddr), a.deserialize E = .ok a.as_ipaddr) ∧
    (∀ (E : Type) (a : ArchivedSocketAddrV4),
      a.deserialize E = .ok a.as_socket_addr_v4) ∧
    (∀ (E : Type) (a : ArchivedSocketAddrV6),
      a.deserialize E = .ok a.as_socket_addr_v6) ∧
    (∀ (E : Type) (a : ArchivedSocketAddr),
      a.deserialize E = .ok a.as_socket_addr) := by
  refine ⟨fun E v => rfl, fun E v => rfl, fun E v => ?_, fun E v => rfl,
    fun E v => rfl, fun E v => ?_, fun E a => rfl, fun E a => rfl,
    fun E a => ?_, fun E a => rfl, fun E a => rfl, fun E a => ?_⟩
  · cases v <;> rfl
  · cases v <;> rfl
  · cases a <;>
      simp [ArchivedIpAddr.deserialize, ArchivedIpv4Addr.deserialize,
        ArchivedIpv6Addr.deserialize, ArchivedIpAddr.as_ipaddr, Except.bind]
  · cases a <;>
      simp [ArchivedSocketAddr.deserialize, ArchivedSocketAddrV4.deserialize,
        ArchivedSocketAddrV6.deserialize, ArchivedIpv4Addr.deserialize,
        ArchivedIpv6Addr.deserialize, ArchivedSocketAddr.as_socket_addr,
        ArchivedSocketAddrV4.as_socket_addr_v4,
        ArchivedSocketAddrV6.as_socket_addr_v6, Except.bind]

/-- C10: the archived form of every `IpAddr` agrees with the domain value on
`is_ipv4`, `is_ipv6`, `is_loopback`, `is_multicast` and `is_unspecified`. -/
theorem C10_classification_agreement (v : IpAddr) :
    v.archive.is_ipv4 = v.is_ipv4 ∧
    v.archive.is_ipv6 = v.is_ipv6 ∧
    v.archive.is_loopback = v.is_loopback ∧
    v.archive.is_multicast = v.is_multicast ∧
    v.archive.is_unspecified = v.is_unspecified := by
  cases v with
  | V4 a =>
    refine ⟨rfl, rfl, ?_, ?_, ?_⟩ <;>
      simp [IpAddr.archive, ArchivedIpAddr.is_loopback,
        ArchivedIpAddr.is_multicast, ArchivedIpAddr.is_unspecified,
        ArchivedIpv4Addr.is_loopback, ArchivedIpv4Addr.is_multicast,
        ArchivedIpv4Addr.is_unspecified, archive_as_ipv4,
        IpAddr.is_loopback, IpAddr.is_multicast, IpAddr.is_unspecified]
  | V6 a =>
    refine ⟨rfl, rfl, ?_, ?_, ?_⟩ <;>
      simp [IpAddr.archive, ArchivedIpAddr.is_loopback,
        ArchivedIpAddr.is_multicast, ArchivedIpAddr.is_unspecified,
        ArchivedIpv6Addr.is_loopback, ArchivedIpv6Addr.is_multicast,
        ArchivedIpv6Addr.is_unspecified, archive_as_ipv6,
        IpAddr.is_loopback, IpAddr.is_multicast, IpAddr.is_unspecified]

/-- C9: re-archiving the value decoded from an archive produces byte-identical
resolve output: for every in-scope value and position, the write list of the
decoded value equals the write list of the original. -/
theorem C9_rearchive_byte_identical :
    (∀ (v : Ipv4Addr) (pos : Nat),
      writesIpv4 v.archive.as_ipv4 pos = writesIpv4 v pos) ∧
    (∀ (v : Ipv6Addr) (pos : Nat),
      writesIpv6 v.archive.as_ipv6 pos = writesIpv6 v pos) ∧
    (∀ (v : IpAddr) (pos : Nat),
      writesIpAddr v.archive.as_ipaddr pos = writesIpAddr v pos) ∧
    (∀ (v : SocketAddrV4) (pos : Nat),
      writesSocketAddrV4 v.archive.as_socket_addr_v4 pos =
        writesSocketAddrV4 v pos) ∧
    (∀ (v : SocketAddrV6) (pos : Nat),
      writesSocketAddrV6 v.archive.as_socket_addr_v6 pos =
        writesSocketAddrV6 v pos) ∧
    (∀ (v : SocketAddr) (pos : Nat),
      writesSocketAddr v.archive.as_socket_addr pos = writesSocketAddr v pos) := by
  refine ⟨fun v pos => ?_, fun v pos => ?_, fun v pos => ?_, fun v pos => ?_,
    fun v pos => ?_, fun v pos => ?_⟩
  · rw [archive_as_ipv4]
  · rw [archive_as_ipv6]
  · rw [archive_as_ipaddr]
  · rw [archive_as_sav4]
  · rw [archive_as_sav6]
  · rw [archive_as_sa]

/-- C5: archiving a V4-variant `IpAddr` or `SocketAddr` writes discriminant
byte 0 at the slot start, a V6-variant writes discriminant byte 1
(declaration order), and each archived value decodes back to the original
variant with an identical payload. -/
theorem C5_tagged_union_discriminants :
    (∀ (a : Ipv4Addr) (pos : Nat) (buf : Buffer),
      applyWrites (writesIpAddr (.V4 a) pos) buf pos = some 0) ∧
    (∀ (a : Ipv6Addr) (pos : Nat) (buf : Buffer),
      applyWrites (writesIpAddr (.V6 a) pos) buf pos = some 1) ∧
    (∀ (a : SocketAddrV4) (pos : Nat) (buf : Buffer),
      applyWrites (writesSocketAddr (.V4 a) pos) buf pos = some 0) ∧
    (∀ (a : SocketAddrV6) (pos : Nat) (buf : Buffer),
      applyWrites (writesSocketAddr (.V6 a) pos) buf pos = some 1) ∧
    (∀ a : Ipv4Addr, (IpAddr.archive (.V4 a)).as_ipaddr = .V4 a) ∧
    (∀ a : Ipv6Addr, (IpAddr.archive (.V6 a)).as_ipaddr = .V6 a) ∧
    (∀ a : SocketAddrV4,
      (SocketAddr.archive (.V4 a)).as_socket_addr = .V4 a) ∧
    (∀ a : SocketAddrV6,
      (SocketAddr.archive (.V6 a)).as_socket_addr = .V6 a) := by
  refine ⟨fun a pos buf => ?_, fun a pos buf => ?_, fun a pos buf => ?_,
    fun a pos buf => ?_, fun a => ?_, fun a => ?_, fun a => ?_, fun a => ?_⟩
  · rw [writesIpAddr, applyWrites_cons, writesIpv4,
      applyWrites_out_bytes a.octetsList (pos + offV4InIpAddr) _ pos
        (by simp only [offV4InIpAddr]; omega)]
    simp [updB, ArchivedIpAddrTag.val]
  · rw [writesIpAddr, applyWrites_cons, writesIpv6,
      applyWrites_out_bytes a.octetsList (pos + offV6InIpAddr) _ pos
        (by simp only [offV6InIpAddr]; omega)]
    simp [updB, ArchivedIpAddrTag.val]
  · rw [writesSocketAddr, applyWrites_cons, writesSocketAddrV4,
      applyWrites_append, writesIpv4, u16Writes,
      applyWrites_out_bytes (u16Bytes a.port)
        (pos + offV4InSA + offPortInSAV4) _ pos
        (by simp only [offV4InSA, offPortInSAV4]; omega),
      applyWrites_out_bytes a.ip.octetsList (pos + offV4InSA + offIpInSAV4) _
        pos (by simp only [offV4InSA, offIpInSAV4]; omega)]
    simp [updB, ArchivedSocketAddrTag.val]
  · rw [writesSocketAddr, applyWrites_cons, writesSocketAddrV6,
      applyWrites_append, applyWrites_append, applyWrites_append, writesIpv6,
      u16Writes, u32Writes, u32Writes,
      applyWrites_out_bytes (u32Bytes a.scope_id)
        (pos + offV6InSA + offScopeInSAV6) _ pos
        (by simp only [offV6InSA, offScopeInSAV6]; omega),
      applyWrites_out_bytes (u32Bytes a.flowinfo)
        (pos + offV6InSA + offFlowInSAV6) _ pos
        (by simp only [offV6InSA, offFlowInSAV6]; omega),
      applyWrites_out_bytes (u16Bytes a.port)
        (pos + offV6InSA + offPortInSAV6) _ pos
        (by simp only [offV6InSA, offPortInSAV6]; omega),
      applyWrites_out_bytes a.ip.octetsList (pos + offV6InSA + offIpInSAV6) _
        pos (by simp only [offV6InSA, offIpInSAV6]; omega)]
    simp [updB, ArchivedSocketAddrTag.val]
  · simp [IpAddr.archive, ArchivedIpAddr.as_ipaddr, archive_as_ipv4]
  · simp [IpAddr.archive, ArchivedIpAddr.as_ipaddr, archive_as_ipv6]
  · simp [SocketAddr.archive, ArchivedSocketAddr.as_socket_addr,
      archive_as_sav4]
  · simp [SocketAddr.archive, ArchivedSocketAddr.as_socket_addr,
      archive_as_sav6]

/-! ## Length and write-set helper lemmas -/

/-- `Ipv4Addr::octets` has four bytes. -/
theorem length_octets_ipv4 (v : Ipv4Addr) : v.octetsList.length = 4 := rfl

/-- `Ipv6Addr::octets` has sixteen bytes. -/
theorem length_octets_ipv6 (v : Ipv6Addr) : v.octetsList.length = 16 := rfl

/-- A `u16` image has two bytes. -/
theorem length_u16Bytes (x : Fin 65536) : (u16Bytes x).length = 2 := rfl

/-- A `u32` image has four bytes. -/
theorem length_u32Bytes (x : Fin 4294967296) : (u32Bytes x).length = 4 := rfl

/-- Written positions distribute over concatenation. -/
theorem writtenPos_append (xs ys : List (Nat × Nat)) :
    writtenPos (xs ++ ys) = writtenPos xs ++ writtenPos ys :=
  List.map_append _ _ _

/-- Written positions of a single leading write. -/
theorem writtenPos_cons (p v : Nat) (ws : List (Nat × Nat)) :
    writtenPos ((p, v) :: ws) = p :: writtenPos ws := rfl

/-- Appending writes that do not touch `j` does not change the byte at `j`. -/
theorem applyWrites_focus (xs ys : List (Nat × Nat)) (buf : Buffer) (j : Nat)
    (h : j ∉ writtenPos ys) :
    applyWrites (xs ++ ys) buf j = applyWrites xs buf j := by
  rw [applyWrites_append, applyWrites_out _ _ _ h]

/-- The byte at `j` after `xs ++ ys` is the byte `ys` alone would leave,
provided `ys` writes `j` or `xs` does not. -/
theorem applyWrites_skip (xs ys : List (Nat × Nat)) (buf : Buffer) (j : Nat)
    (h : j ∈ writtenPos ys ∨ j ∉ writtenPos xs) :
    applyWrites (xs ++ ys) buf j = applyWrites ys buf j := by
  rw [applyWrites_append]
  rcases h with h | h
  · exact applyWrites_congr _ _ _ _ h
  · by_cases hy : j ∈ writtenPos ys
    · exact applyWrites_congr _ _ _ _ hy
    · rw [applyWrites_out _ _ _ hy, applyWrites_out _ _ _ hy,
        applyWrites_out _ _ _ h]

/-- C3 counterexample: resolving `IpAddr::V4(0.0.0.0)` at position 0 leaves
byte offset 5 of its destination slot unwritten, although the slot
(`size_of::<ArchivedIpAddr>()` bytes) extends to offset 17: the V4 variant
record is only tag + 4 octets, so the claim that every resolve call writes
every byte of its `sizeof(Archived)`-byte slot is false. -/
theorem C3_counterexample_unwritten_byte :
    5 < sizeArchivedIpAddr ∧
    5 ∉ writtenPos (writesIpAddr (IpAddr.V4 (Ipv4Addr.mk 0 0 0 0)) 0) := by
  decide

/-- C3 (amended): each resolve call writes exactly the tag byte and the bytes
of each field or selected variant payload at their layout offsets.  The leaf
types and `ArchivedSocketAddrV4` cover their whole slot; `ArchivedSocketAddrV6`
leaves its two padding bytes (slot offsets 18–19) unwritten; the tagged unions
leave the padding after the tag and everything past the selected variant
record unwritten. -/
theorem C3_written_region_exact :
    (∀ (a : Ipv4Addr) (pos j : Nat),
      j ∈ writtenPos (writesIpv4 a pos) ↔
        pos ≤ j ∧ j < pos + sizeArchivedIpv4) ∧
    (∀ (a : Ipv6Addr) (pos j : Nat),
      j ∈ writtenPos (writesIpv6 a pos) ↔
        pos ≤ j ∧ j < pos + sizeArchivedIpv6) ∧
    (∀ (a : SocketAddrV4) (pos j : Nat),
      j ∈ writtenPos (writesSocketAddrV4 a pos) ↔
        pos ≤ j ∧ j < pos + sizeArchivedSAV4) ∧
    (∀ (a : SocketAddrV6) (pos j : Nat),
      j ∈ writtenPos (writesSocketAddrV6 a pos) ↔
        (pos ≤ j ∧ j < pos + 18) ∨
          (pos + 20 ≤ j ∧ j < pos + sizeArchivedSAV6)) ∧
    (∀ (a : Ipv4Addr) (pos j : Nat),
      j ∈ writtenPos (writesIpAddr (.V4 a) pos) ↔
        j = pos ∨ (pos + 1 ≤ j ∧ j < pos + 5)) ∧
    (∀ (a : Ipv6Addr) (pos j : Nat),
      j ∈ writtenPos (writesIpAddr (.V6 a) pos) ↔
        j = pos ∨ (pos + 2 ≤ j ∧ j < pos + sizeArchivedIpAddr)) ∧
    (∀ (a : SocketAddrV4) (pos j : Nat),
      j ∈ writtenPos (writesSocketAddr (.V4 a) pos) ↔
        j = pos ∨ (pos + 2 ≤ j ∧ j < pos + 8)) ∧
    (∀ (a : SocketAddrV6) (pos j : Nat),
      j ∈ writtenPos (writesSocketAddr (.V6 a) pos) ↔
        j = pos ∨ (pos + 4 ≤ j ∧ j < pos + 22) ∨
          (pos + 24 ≤ j ∧ j < pos + sizeArchivedSA)) := by
  refine ⟨fun a pos j => ?_, fun a pos j => ?_, fun a pos j => ?_,
    fun a pos j => ?_, fun a pos j => ?_, fun a pos j => ?_,
    fun a pos j => ?_, fun a pos j => ?_⟩
  · rw [writesIpv4, writtenPos_bytesAt, length_octets_ipv4]
    simp only [sizeArchivedIpv4]
  · rw [writesIpv6, writtenPos_bytesAt, length_octets_ipv6]
    simp only [sizeArchivedIpv6]
  · rw [writesSocketAddrV4, writtenPos_append]
    simp only [List.mem_append, writesIpv4, u16Writes, writtenPos_bytesAt,
      length_octets_ipv4, length_u16Bytes, offIpInSAV4, offPortInSAV4,
      sizeArchivedSAV4]
    omega
  · rw [writesSocketAddrV6, writtenPos_append, writtenPos_append,
      writtenPos_append]
    simp only [List.mem_append, writesIpv6, u16Writes, u32Writes,
      writtenPos_bytesAt, length_octets_ipv6, length_u16Bytes,
      length_u32Bytes, offIpInSAV6, offPortInSAV6, offFlowInSAV6,
      offScopeInSAV6, sizeArchivedSAV6]
    omega
  · rw [writesIpAddr, writtenPos_cons]
    simp only [List.mem_cons, writesIpv4, writtenPos_bytesAt,
      length_octets_ipv4, offV4InIpAddr]
  · rw [writesIpAddr, writtenPos_cons]
    simp only [List.mem_cons, writesIpv6, writtenPos_bytesAt,
      length_octets_ipv6, offV6InIpAddr, sizeArchivedIpAddr]
  · rw [writesSocketAddr, writtenPos_cons, writesSocketAddrV4,
      writtenPos_append]
    simp only [List.mem_cons, List.mem_append, writesIpv4, u16Writes,
      writtenPos_bytesAt, length_octets_ipv4, length_u16Bytes, offV4InSA,
      offIpInSAV4, offPortInSAV4]
    omega
  · rw [writesSocketAddr, writtenPos_cons, writesSocketAddrV6,
      writtenPos_append, writtenPos_append, writtenPos_append]
    simp only [List.mem_cons, List.mem_append, writesIpv6, u16Writes,
      u32Writes, writtenPos_bytesAt, length_octets_ipv6, length_u16Bytes,
      length_u32Bytes, offV6InSA, offIpInSAV6, offPortInSAV6, offFlowInSAV6,
      offScopeInSAV6, sizeArchivedSA]
    omega

/-- C8: every composite resolve invokes each field's (or the selected variant
payload's) nested resolve at position exactly `pos` plus that field's byte
offset in the declared archived layout: on the field's slot region, the bytes
the composite resolve leaves are exactly the bytes that field's own resolve at
`pos + offset` leaves. -/
theorem C8_nested_resolve_positions :
    (∀ (v : SocketAddrV4) (pos : Nat) (buf : Buffer) (i : Fin 4),
      applyWrites (writesSocketAddrV4 v pos) buf (pos + offIpInSAV4 + i.val) =
        applyWrites (writesIpv4 v.ip (pos + offIpInSAV4)) buf
          (pos + offIpInSAV4 + i.val)) ∧
    (∀ (v : SocketAddrV4) (pos : Nat) (buf : Buffer) (i : Fin 2),
      applyWrites (writesSocketAddrV4 v pos) buf
          (pos + offPortInSAV4 + i.val) =
        applyWrites (u16Writes v.port (pos + offPortInSAV4)) buf
          (pos + offPortInSAV4 + i.val)) ∧
    (∀ (v : SocketAddrV6) (pos : Nat) (buf : Buffer) (i : Fin 16),
      applyWrites (writesSocketAddrV6 v pos) buf (pos + offIpInSAV6 + i.val) =
        applyWrites (writesIpv6 v.ip (pos + offIpInSAV6)) buf
          (pos + offIpInSAV6 + i.val)) ∧
    (∀ (v : SocketAddrV6) (pos : Nat) (buf : Buffer) (i : Fin 2),
      applyWrites (writesSocketAddrV6 v pos) buf
          (pos + offPortInSAV6 + i.val) =
        applyWrites (u16Writes v.port (pos + offPortInSAV6)) buf
          (pos + offPortInSAV6 + i.val)) ∧
    (∀ (v : SocketAddrV6) (pos : Nat) (buf : Buffer) (i : Fin 4),
      applyWrites (writesSocketAddrV6 v pos) buf
          (pos + offFlowInSAV6 + i.val) =
        applyWrites (u32Writes v.flowinfo (pos + offFlowInSAV6)) buf
          (pos + offFlowInSAV6 + i.val)) ∧
    (∀ (v : SocketAddrV6) (pos : Nat) (buf : Buffer) (i : Fin 4),
      applyWrites (writesSocketAddrV6 v pos) buf
          (pos + offScopeInSAV6 + i.val) =
        applyWrites (u32Writes v.scope_id (pos + offScopeInSAV6)) buf
          (pos + offScopeInSAV6 + i.val)) ∧
    (∀ (a : Ipv4Addr) (pos : Nat) (buf : Buffer) (i : Fin 4),
      applyWrites (writesIpAddr (.V4 a) pos) buf
          (pos + offV4InIpAddr + i.val) =
        applyWrites (writesIpv4 a (pos + offV4InIpAddr)) buf
          (pos + offV4InIpAddr + i.val)) ∧
    (∀ (a : Ipv6Addr) (pos : Nat) (buf : Buffer) (i : Fin 16),
      applyWrites (writesIpAddr (.V6 a) pos) buf
          (pos + offV6InIpAddr + i.val) =
        applyWrites (writesIpv6 a (pos + offV6InIpAddr)) buf
          (pos + offV6InIpAddr + i.val)) ∧
    (∀ (a : SocketAddrV4) (pos : Nat) (buf : Buffer) (i : Fin 6),
      applyWrites (writesSocketAddr (.V4 a) pos) buf
          (pos + offV4InSA + i.val) =
        applyWrites (writesSocketAddrV4 a (pos + offV4InSA)) buf
          (pos + offV4InSA + i.val)) ∧
    (∀ (a : SocketAddrV6) (pos : Nat) (buf : Buffer) (i : Fin 28),
      applyWrites (writesSocketAddr (.V6 a) pos) buf
          (pos + offV6InSA + i.val) =
        applyWrites (writesSocketAddrV6 a (pos + offV6InSA)) buf
          (pos + offV6InSA + i.val)) := by
  refine ⟨fun v pos buf i => ?_, fun v pos buf i => ?_, fun v pos buf i => ?_,
    fun v pos buf i => ?_, fun v pos buf i => ?_, fun v pos buf i => ?_,
    fun a pos buf i => ?_, fun a pos buf i => ?_, fun a pos buf i => ?_,
    fun a pos buf i => ?_⟩
  all_goals have hi := i.isLt
  · have hB : pos + offIpInSAV4 + i.val ∉
        writtenPos (u16Writes v.port (pos + offPortInSAV4)) := by
      rw [u16Writes, writtenPos_bytesAt, length_u16Bytes]
      simp only [offIpInSAV4, offPortInSAV4]
      omega
    rw [writesSocketAddrV4, applyWrites_focus _ _ _ _ hB]
  · have hB : pos + offPortInSAV4 + i.val ∈
        writtenPos (u16Writes v.port (pos + offPortInSAV4)) := by
      rw [u16Writes, writtenPos_bytesAt, length_u16Bytes]
      omega
    rw [writesSocketAddrV4, applyWrites_skip _ _ _ _ (Or.inl hB)]
  · have hD : pos + offIpInSAV6 + i.val ∉
        writtenPos (u32Writes v.scope_id (pos + offScopeInSAV6)) := by
      rw [u32Writes, writtenPos_bytesAt, length_u32Bytes]
      simp only [offIpInSAV6, offScopeInSAV6]
      omega
    have hC : pos + offIpInSAV6 + i.val ∉
        writtenPos (u32Writes v.flowinfo (pos + offFlowInSAV6)) := by
      rw [u32Writes, writtenPos_bytesAt, length_u32Bytes]
      simp only [offIpInSAV6, offFlowInSAV6]
      omega
    have hB : pos + offIpInSAV6 + i.val ∉
        writtenPos (u16Writes v.port (pos + offPortInSAV6)) := by
      rw [u16Writes, writtenPos_bytesAt, length_u16Bytes]
      simp only [offIpInSAV6, offPortInSAV6]
      omega
    rw [writesSocketAddrV6, applyWrites_focus _ _ _ _ hD,
      applyWrites_focus _ _ _ _ hC, applyWrites_focus _ _ _ _ hB]
  · have hD : pos + offPortInSAV6 + i.val ∉
        writtenPos (u32Writes v.scope_id (pos + offScopeInSAV6)) := by
      rw [u32Writes, writtenPos_bytesAt, length_u32Bytes]
      simp only [offPortInSAV6, offScopeInSAV6]
      omega
    have hC : pos + offPortInSAV6 + i.val ∉
        writtenPos (u32Writes v.flowinfo (pos + offFlowInSAV6)) := by
      rw [u32Writes, writtenPos_bytesAt, length_u32Bytes]
      simp only [offPortInSAV6, offFlowInSAV6]
      omega
    have hB : pos + offPortInSAV6 + i.val ∈
        writtenPos (u16Writes v.port (pos + offPortInSAV6)) := by
      rw [u16Writes, writtenPos_bytesAt, length_u16Bytes]
      omega
    rw [writesSocketAddrV6, applyWrites_focus _ _ _ _ hD,
      applyWrites_focus _ _ _ _ hC, applyWrites_skip _ _ _ _ (Or.inl hB)]
  · have hD : pos + offFlowInSAV6 + i.val ∉
        writtenPos (u32Writes v.scope_id (pos + offScopeInSAV6)) := by
      rw [u32Writes, writtenPos_bytesAt, length_u32Bytes]
      simp only [offFlowInSAV6, offScopeInSAV6]
      omega
    have hC : pos + offFlowInSAV6 + i.val ∈
        writtenPos (u32Writes v.flowinfo (pos + offFlowInSAV6)) := by
      rw [u32Writes, writtenPos_bytesAt, length_u32Bytes]
      omega
    rw [writesSocketAddrV6, applyWrites_focus _ _ _ _ hD,
      applyWrites_skip _ _ _ _ (Or.inl hC)]
  · have hD : pos + offScopeInSAV6 + i.val ∈
        writtenPos (u32Writes v.scope_id (pos + offScopeInSAV6)) := by
      rw [u32Writes, writtenPos_bytesAt, length_u32Bytes]
      omega
    rw [writesSocketAddrV6, applyWrites_skip _ _ _ _ (Or.inl hD)]
  · have hT : pos + offV4InIpAddr + i.val ∉
        writtenPos [(pos, ArchivedIpAddrTag.V4.val)] := by
      simp only [writtenPos, List.map_cons, List.map_nil, List.mem_singleton,
        offV4InIpAddr]
      omega
    rw [writesIpAddr, ← List.singleton_append,
      applyWrites_skip _ _ _ _ (Or.inr hT)]
  · have hT : pos + offV6InIpAddr + i.val ∉
        writtenPos [(pos, ArchivedIpAddrTag.V6.val)] := by
      simp only [writtenPos, List.map_cons, List.map_nil, List.mem_singleton,
        offV6InIpAddr]
      omega
    rw [writesIpAddr, ← List.singleton_append,
      applyWrites_skip _ _ _ _ (Or.inr hT)]
  · have hT : pos + offV4InSA + i.val ∉
        writtenPos [(pos, ArchivedSocketAddrTag.V4.val)] := by
      simp only [writtenPos, List.map_cons, List.map_nil, List.mem_singleton,
        offV4InSA]
      omega
    rw [writesSocketAddr, ← List.singleton_append,
      applyWrites_skip _ _ _ _ (Or.inr hT)]
  · have hT : pos + offV6InSA + i.val ∉
        writtenPos [(pos, ArchivedSocketAddrTag.V6.val)] := by
      simp only [writtenPos, List.map_cons, List.map_nil, List.mem_singleton,
        offV6InSA]
      omega
    rw [writesSocketAddr, ← List.singleton_append,
      applyWrites_skip _ _ _ _ (Or.inr hT)]

/-- C4: for every `Ipv6Addr` whose first 16-bit segment is 1, the archived
representation's first two bytes are 0x00 then 0x01 — both in the stored
struct and in the bytes resolve writes at any position, with no dependence on
a host byte order anywhere in the byte model — and decoding yields 1 back in
the first segment. -/
theorem C4_first_segment_network_order (v : Ipv6Addr) (pos : Nat)
    (buf : Buffer) (h : v.s0.val = 1) :
    v.archive.b0.val = 0 ∧ v.archive.b1.val = 1 ∧
    applyWrites (writesIpv6 v pos) buf pos = some 0 ∧
    applyWrites (writesIpv6 v pos) buf (pos + 1) = some 1 ∧
    v.archive.as_ipv6.s0.val = 1 := by
  refine ⟨?_, ?_, ?_, ?_, ?_⟩
  · simp [Ipv6Addr.archive, hiByte, h]
  · simp [Ipv6Addr.archive, loByte, h]
  · have h0 := applyWrites_bytesAt_get v.octetsList pos buf 0
      (by rw [length_octets_ipv6]; omega)
    rw [Nat.add_zero] at h0
    rw [writesIpv6, h0]
    simp [Ipv6Addr.octetsList, h]
  · have h1 := applyWrites_bytesAt_get v.octetsList pos buf 1
      (by rw [length_octets_ipv6]; omega)
    rw [writesIpv6, h1]
    simp [Ipv6Addr.octetsList, h]
  · rw [archive_as_ipv6]
    exact h

/-- C4 witness: the concrete address with segments (1, 2, 3, 4, 5, 6, 7, 8)
resolved at position 0 into an empty buffer. -/
theorem C4_first_segment_network_order_witness :
    (Ipv6Addr.mk 1 2 3 4 5 6 7 8).s0.val = 1 ∧
    ((Ipv6Addr.mk 1 2 3 4 5 6 7 8).archive.b0.val = 0 ∧
      (Ipv6Addr.mk 1 2 3 4 5 6 7 8).archive.b1.val = 1 ∧
      applyWrites (writesIpv6 (Ipv6Addr.mk 1 2 3 4 5 6 7 8) 0) emptyBuf 0 =
        some 0 ∧
      applyWrites (writesIpv6 (Ipv6Addr.mk 1 2 3 4 5 6 7 8) 0) emptyBuf
        (0 + 1) = some 1 ∧
      (Ipv6Addr.mk 1 2 3 4 5 6 7 8).archive.as_ipv6.s0.val = 1) :=
  ⟨by decide,
   C4_first_segment_network_order (Ipv6Addr.mk 1 2 3 4 5 6 7 8) 0 emptyBuf
     (by decide)⟩

/-- C2 (code-bug evidence): the derived `Ord` of `ArchivedIpv6Addr` compares
the stored `segments: [u16; 8]` field as native `u16` values.  For
v = 1:: and w = 100:: (first segments 1 and 256), on a little-endian host the
archived comparison yields `gt` while the domain order yields `lt`; on a
big-endian host it yields `lt`.  The archived-vs-archived ordering therefore
disagrees with the domain ordering on little-endian hosts. -/
theorem C2_derived_ord_diverges_on_little_endian :
    ArchivedIpv6Addr.cmpArchived true
        (Ipv6Addr.mk 1 0 0 0 0 0 0 0).archive
        (Ipv6Addr.mk 256 0 0 0 0 0 0 0).archive = Ordering.gt ∧
    Ipv6Addr.cmp (Ipv6Addr.mk 1 0 0 0 0 0 0 0)
        (Ipv6Addr.mk 256 0 0 0 0 0 0 0) = Ordering.lt ∧
    ArchivedIpv6Addr.cmpArchived false
        (Ipv6Addr.mk 1 0 0 0 0 0 0 0).archive
        (Ipv6Addr.mk 256 0 0 0 0 0 0 0).archive = Ordering.lt := by
  decide
